import Mathlib

/-!
Verification of the steel-llama Discord/LLM bridge bot.

Python strings are modelled as `List Char`; machine integers (Discord ids,
message ids) as `Int`; timestamps as `Nat` (an ordered instant, with `0`
standing for `datetime.min`); fallible operations return `Except`.

Each Python module is embedded in its own namespace:
  * `PyStr`          - Python `str` primitives (`find`, `strip`, slicing, `split`)
  * `ChatModelMod`   - `src/bot/chat_model.py`
  * `LlmResponseMod` - `src/bot/llm_response.py` (the incremental parser)
  * `ResponseMod`    - `src/bot/response.py` (the one-shot response splitter)
  * `ChatSessionMod` - `src/bot/chat_session.py`
  * `BotMod`         - `src/bot/__init__.py`
  * `BotCommandsMod` - `src/bot/bot_commands.py`
-/

set_option maxHeartbeats 1000000
set_option maxRecDepth 4000

namespace PyStr

/-- Python whitespace predicate for `str.strip` and friends, restricted to the
ASCII whitespace characters of `string.whitespace`. -/
def pyIsSpace (c : Char) : Bool :=
  c = ' ' || c = '\t' || c = '\n' || c = '\r' || c = '\x0b' || c = '\x0c'

/-- Python `s.lstrip()`. -/
def lstrip (l : List Char) : List Char := l.dropWhile pyIsSpace

/-- Python `s.rstrip()`. -/
def rstrip (l : List Char) : List Char := (l.reverse.dropWhile pyIsSpace).reverse

/-- Python `s.strip()`. -/
def strip (l : List Char) : List Char := lstrip (rstrip l)

/-- Python `s.find(pat)`: index of the first occurrence of `pat` in `s`, or
`none` where Python returns `-1`. -/
def pyFind (l pat : List Char) : Option Nat :=
  if pat.isPrefixOf l then some 0
  else
    match l with
    | [] => none
    | _ :: t => (pyFind t pat).map (· + 1)

/-- Python slice `l[a:b]` for non-negative bounds. -/
def pySlice (l : List Char) (a b : Nat) : List Char := (l.take b).drop a

/-- `pat` occurs in `l` at index `p`. -/
def occursAt (l pat : List Char) (p : Nat) : Prop := pat.isPrefixOf (l.drop p)

instance (l pat : List Char) (p : Nat) : Decidable (occursAt l pat p) := by
  unfold occursAt; infer_instance

end PyStr

namespace ChatModelMod

open PyStr

/-- Python `s.split(sep)` for a single-character separator (the only form the
source uses: `full_name.split(":")`). -/
def pySplitChar (sep : Char) : List Char → List (List Char)
  | [] => [[]]
  | c :: t =>
    match pySplitChar sep t with
    | [] => [[c]]
    | h :: r => if c = sep then [] :: h :: r else (c :: h) :: r

/-- `split_model_name` from `src/bot/chat_model.py`. -/
def split_model_name (full_name : List Char) :
    Option (List Char) × Option (List Char) :=
  match pySplitChar ':' full_name with
  | [a, b] => (some a, some b)
  | [a] => (if a.isEmpty then none else some a, none)
  | _ => (none, none)

end ChatModelMod

namespace LlmResponseMod

open PyStr

/-- State of the incremental `LLMResponse` parser from `src/bot/llm_response.py`. -/
structure LLMResponse where
  thinking_start_tag : Option (List Char)
  thinking_end_tag : Option (List Char)
  thoughts : List Char
  content : List Char
  thinking_started : Bool
  thinking_finished : Bool
deriving Repr, DecidableEq

/-- `LLMResponse.__init__`. -/
def init (thinking_start_tag thinking_end_tag : Option (List Char)) : LLMResponse :=
  ⟨thinking_start_tag, thinking_end_tag, [], [], false, false⟩

/-- The `thinking_in_progress` property. -/
def thinking_in_progress (r : LLMResponse) : Bool :=
  r.thinking_started && !r.thinking_finished

/-- `LLMResponse._process_thinking`: returns the updated state and the
`chunk_processed` flag the Python method returns. -/
def process_thinking (self : LLMResponse) (chunk : List Char) : LLMResponse × Bool :=
  match self.thinking_start_tag, self.thinking_end_tag with
  | some start_tag, some end_tag =>
    if self.thinking_finished then (self, false)
    else
      let thinking_start : Option Nat :=
        (pyFind chunk start_tag).map (fun p => p + start_tag.length)
      let thinking_end : Option Nat := pyFind chunk end_tag
      let content_start : Option Nat :=
        match thinking_end with
        | some te =>
          if chunk.length ≤ te + end_tag.length then none else some (te + end_tag.length)
        | none => none
      let step1 : LLMResponse × Bool :=
        match thinking_start with
        | some ts =>
          let st :=
            match thinking_end with
            | some te => { self with thoughts := self.thoughts ++ strip (pySlice chunk ts te) }
            | none => { self with thoughts := self.thoughts ++ lstrip (chunk.drop ts) }
          ({ st with thinking_started := true }, true)
        | none => (self, false)
      let step2 : LLMResponse × Bool :=
        match thinking_end with
        | some te =>
          let st :=
            if step1.2 then step1.1
            else { step1.1 with thoughts := step1.1.thoughts ++ rstrip (chunk.take te) }
          ({ st with thinking_finished := true }, true)
        | none => step1
      if thinking_in_progress step2.1 && !step2.2 then
        ({ step2.1 with thoughts := step2.1.thoughts ++ chunk }, true)
      else
        match content_start with
        | some cs => ({ step2.1 with content := step2.1.content ++ lstrip (chunk.drop cs) }, true)
        | none => step2
  | _, _ => (self, false)

/-- `LLMResponse.append`. -/
def append (self : LLMResponse) (chunk : List Char) : LLMResponse :=
  let r := process_thinking self chunk
  if !(thinking_in_progress r.1) && !r.2 then
    { r.1 with content := r.1.content ++ chunk }
  else r.1

/-- Feeding a sequence of chunks to the parser, in order. -/
def feed (r : LLMResponse) (chunks : List (List Char)) : LLMResponse :=
  chunks.foldl append r

end LlmResponseMod

namespace LlmResponseMod

open PyStr

/-- The text `start-tag ++ thoughts-span ++ end-tag ++ content-span`. -/
def fullText (s e a b : List Char) : List Char := s ++ (a ++ (e ++ b))

/-- A chunk-boundary position in `fullText s e a b` that splits neither tag
occurrence: it is not strictly inside the start tag `[0, |s|)` nor strictly
inside the end-tag occurrence `[|s|+|a|, |s|+|a|+|e|)`. -/
def aligned (s e a : List Char) (p : Nat) : Prop :=
  (p = 0 ∨ s.length ≤ p) ∧
  (p ≤ s.length + a.length ∨ s.length + a.length + e.length ≤ p)

instance (s e a : List Char) (p : Nat) : Decidable (aligned s e a p) := by
  unfold aligned
  infer_instance

/-- The parser state after consuming, at aligned boundaries, the first `p`
characters of `fullText s e a b`. -/
def refState (s e a b : List Char) (p : Nat) : LLMResponse :=
  { thinking_start_tag := some s
    thinking_end_tag := some e
    thoughts := a.take (p - s.length)
    content := b.take (p - (s.length + a.length + e.length))
    thinking_started := decide (s.length ≤ p)
    thinking_finished := decide (s.length + a.length + e.length ≤ p) }

/-- Total length of a chunk list. -/
def sumLen (cs : List (List Char)) : Nat := (cs.map List.length).sum

end LlmResponseMod

namespace ResponseMod

open PyStr

/-- State of the one-shot `LLMResponse` splitter from `src/bot/response.py`. -/
structure LLMResponse where
  thinking_start_tag : Option (List Char)
  thinking_end_tag : Option (List Char)
  thoughts : Option (List Char)
  content : Option (List Char)
deriving Repr, DecidableEq

/-- `LLMResponse._extract_thoughts`. -/
def extract_thoughts (self : LLMResponse) (raw_response : List Char) : LLMResponse :=
  match self.thinking_start_tag, self.thinking_end_tag with
  | some start_tag, some end_tag =>
    match pyFind raw_response start_tag with
    | some sp =>
      let thoughts_start := sp + start_tag.length
      match pyFind raw_response end_tag with
      | some ep =>
        let thoughts_end := ep + end_tag.length
        { self with
          thoughts := some (strip (pySlice raw_response thoughts_start ep)),
          content := some (lstrip (raw_response.drop thoughts_end)) }
      | none =>
        { self with thoughts := some (lstrip (raw_response.drop thoughts_start)) }
    | none => { self with content := some raw_response }
  | _, _ => { self with content := some raw_response }

/-- `LLMResponse.__init__(raw_response, thinking_tags)`: stores the tags, then
`_process` strips the raw response and extracts the thoughts. -/
def init (raw_response : List Char) (thinking_tags : Option (List Char × List Char)) :
    LLMResponse :=
  extract_thoughts
    { thinking_start_tag := thinking_tags.map Prod.fst,
      thinking_end_tag := thinking_tags.map Prod.snd,
      thoughts := none, content := none }
    (strip raw_response)

end ResponseMod

namespace ChatMessageMod

open PyStr

/-- Modelled from the spec: `MessageRole`, the role enum of §3
(`{system, user, assistant, tool}`). The defining revision of
`src/bot/chat_message.py` is referenced by `src/bot/chat_session.py` and
`src/tests/chat_message_tests.py` but is not present under `src/`. -/
inductive MessageRole where
  | SYSTEM
  | USER
  | ASSISTANT
  | TOOL
deriving Repr, DecidableEq

/-- Modelled from the spec: `str(role)`, the role name stored in the database
and sent in the `{role, content}` pairs. -/
def MessageRole.toText : MessageRole → List Char
  | .SYSTEM => "system".toList
  | .USER => "user".toList
  | .ASSISTANT => "assistant".toList
  | .TOOL => "tool".toList

/-- Modelled from the spec: the `ChatMessage` value type of §3, in the shape
`src/bot/chat_session.py` constructs (`id`, `owner_id`, `sender_id`,
`sender_nickname`, `session_name`, `timestamp`, `role`, `content`); timestamps
are modelled as `Nat` with `0` for `datetime.min`. -/
structure ChatMessage where
  id : Int
  owner_id : Int
  sender_id : Int
  sender_nickname : List Char
  session_name : List Char
  timestamp : Nat
  role : MessageRole
  content : List Char
deriving Repr, DecidableEq

/-- Modelled from the spec (§4.4): `str(msg)` renders as
`"@{nickname}:\n{text}"` (matching `test_chat_message_str`). -/
def ChatMessage.toText (m : ChatMessage) : List Char :=
  "@".toList ++ m.sender_nickname ++ ":\n".toList ++ m.content

/-- A chat-platform user as carried by a mention: `(id, name)`. -/
structure User where
  id : Int
  name : List Char
deriving Repr, DecidableEq

/-- A chat-platform message as the Discord client presents it. -/
structure DiscordMessage where
  id : Int
  author_id : Int
  author_display_name : List Char
  content : List Char
  created_at : Nat
  mentions : List User
deriving Repr, DecidableEq

/-- Decimal rendering of an integer, for the `f"...{id}..."` interpolations. -/
def int_to_text (i : Int) : List Char := (toString i).toList

/-- Python `s.replace(pat, rep)` (all non-overlapping occurrences, scanned from
the left; the source only uses non-empty patterns). -/
def pyReplace (l pat rep : List Char) : List Char :=
  match l with
  | [] => []
  | c :: t =>
    if h : pat ≠ [] ∧ pat.isPrefixOf (c :: t) then
      rep ++ pyReplace ((c :: t).drop pat.length) pat rep
    else
      c :: pyReplace t pat rep
termination_by l.length
decreasing_by
  · simp only [List.length_drop, List.length_cons]
    have : 0 < pat.length := List.length_pos.mpr h.1
    omega
  · simp only [List.length_cons]
    omega

/-- `transform_mentions_into_usernames` (defined identically in
`src/bot/bot_commands.py` and referenced from the missing `chat_message`
module): each `<@id>` becomes `<@name (UID: id)>`. -/
def transform_mentions_into_usernames (message : List Char) (mentions : List User) :
    List Char :=
  mentions.foldl
    (fun msg u =>
      pyReplace msg
        ("<@".toList ++ int_to_text u.id ++ ">".toList)
        ("<@".toList ++ u.name ++ " (UID: ".toList ++ int_to_text u.id ++ ")>".toList))
    message

/-- Modelled from the spec (§3, §4.3) and `test_chat_message_from_discord_message`:
`ChatMessage.from_discord_message(message, role, session_name, owner_id)` of
the missing `chat_message` revision; mention ids in the content are rewritten. -/
def from_discord_message (message : DiscordMessage) (role : MessageRole)
    (session_name : List Char) (owner_id : Int) : ChatMessage :=
  { id := message.id
    owner_id := owner_id
    sender_id := message.author_id
    sender_nickname := message.author_display_name
    session_name := session_name
    timestamp := message.created_at
    role := role
    content := transform_mentions_into_usernames message.content message.mentions }

end ChatMessageMod

namespace ChatSessionMod

open PyStr ChatMessageMod

/-- `count_words_and_special_chars`: the word-count half, `len(text.split())`
(Python `split()` with no separator: maximal non-whitespace runs). -/
def word_count : List Char → Bool → Nat
  | [], _ => 0
  | c :: t, in_word =>
    if pyIsSpace c then word_count t false
    else (if in_word then 0 else 1) + word_count t true

/-- The special-character set of `count_words_and_special_chars`. -/
def special_chars : List Char :=
  ",.\x27\"!@#$%^&*()_+-=[]\x7b\x7d|;:,.<>?/`~".toList

/-- `count_words_and_special_chars` from `src/bot/chat_session.py`. -/
def count_words_and_special_chars (text : List Char) : Nat :=
  word_count text false + text.countP (fun c => special_chars.contains c)

/-- In-memory state of a `ChatSession` from `src/bot/chat_session.py`
(`messages_list` is the `self._messages` attribute). -/
structure ChatSession where
  owner_id : Int
  name : List Char
  model : List Char
  system_prompt : List Char
  messages_list : List ChatMessage
deriving Repr, DecidableEq

/-- `datetime.min`, the timestamp of synthetic system messages. -/
def datetimeMin : Nat := 0

/-- The synthetic system message `_update_system_prompt` inserts. -/
def system_message (s : ChatSession) : ChatMessage :=
  { id := -1
    owner_id := s.owner_id
    sender_id := s.owner_id
    sender_nickname := "System".toList
    session_name := s.name
    timestamp := datetimeMin
    role := .SYSTEM
    content := s.system_prompt }

/-- `ChatSession._update_system_prompt`: drop stored system messages and, if
the prompt is non-empty, insert a fresh synthetic system message at index 0. -/
def update_system_prompt (s : ChatSession) : ChatSession :=
  let filtered := s.messages_list.filter (fun m => m.role ≠ MessageRole.SYSTEM)
  if s.system_prompt.length > 0 then
    { s with messages_list := system_message s :: filtered }
  else
    { s with messages_list := filtered }

/-- `ChatSession.__init__` (the base-class persistence hooks are no-ops). -/
def initSession (owner_id : Int) (name model system_prompt : List Char) : ChatSession :=
  update_system_prompt
    { owner_id := owner_id, name := name, model := model,
      system_prompt := system_prompt, messages_list := [] }

/-- `ChatSession.add_message`. -/
def add_message (s : ChatSession) (m : ChatMessage) : ChatSession :=
  { s with messages_list := s.messages_list ++ [m] }

/-- `ChatSession.messages(limit)`: `self._messages[:limit]` when a
(non-negative) limit is given, the whole list otherwise. -/
def messages (s : ChatSession) (limit : Option Nat) : List ChatMessage :=
  match limit with
  | some n => s.messages_list.take n
  | none => s.messages_list

/-- `ChatSession.to_llm_messages_list`: the `{role, content}` pairs
`(str(msg.role), str(msg))` of `messages(limit)`. -/
def to_llm_messages_list (s : ChatSession) (limit : Option Nat) :
    List (List Char × List Char) :=
  (messages s limit).map (fun m => (m.role.toText, m.toText))

/-- `ChatSession.estimate_length`. -/
def estimate_length (s : ChatSession) (limit : Option Nat) : Nat :=
  ((messages s limit).map (fun m => count_words_and_special_chars m.toText)).sum

/-- The `system_prompt` setter: store the new prompt, persist, and rerun
`_update_system_prompt`. -/
def set_system_prompt (s : ChatSession) (p : List Char) : ChatSession :=
  update_system_prompt { s with system_prompt := p }

/-- The `active_sessions` table as a list of `(owner_id, session_name)` rows. -/
abbrev ActiveSessionsTable := List (Int × List Char)

/-- `SqliteChatSession.mark_as_active`: `DELETE FROM active_sessions WHERE
owner_id = ?`, commit, then `INSERT INTO active_sessions(owner_id,
session_name) VALUES (?, ?)`. -/
def mark_as_active (owner_id : Int) (name : List Char) (table : ActiveSessionsTable) :
    ActiveSessionsTable :=
  table.filter (fun row => row.1 ≠ owner_id) ++ [(owner_id, name)]

end ChatSessionMod

namespace ChatSessionMod

open ChatMessageMod

/-- A value manipulated when syncing message ids: either a bare Python `int`
(an element of `current_messages_ids`) or a row tuple as returned by
`cursor.fetchall()` (an element of `saved_messages_ids`). Equality follows
Python: a 1-tuple never equals a bare int. -/
inductive IdValue where
  | int (i : Int)
  | row (r : List Int)
deriving Repr, DecidableEq

/-- Errors `sqlite3` raises at `execute`. -/
inductive SqlError where
  /-- Incorrect number of bindings supplied (statement placeholders vs values). -/
  | programmingError (placeholders supplied : Nat)
  /-- A parameter of unsupported type (e.g. a tuple) was bound. -/
  | interfaceError
deriving Repr, DecidableEq

/-- The `messages` table, one stored row per message. -/
abbrev MessagesTable := List ChatMessage

/-- The text of the INSERT statement in `_save_session_messages`, as written in
the source (columns on one line): it lists 8 columns but only 7 `?` markers. -/
def insert_message_sql : List Char :=
  ("INSERT INTO messages (id, owner_id, sender_id, sender_nickname, " ++
   "session_name, timestamp, role, content) VALUES (?, ?, ?, ?, ?, ?, ?)").toList

/-- Number of `?` placeholders in a statement. -/
def placeholder_count (sql : List Char) : Nat := sql.countP (fun c => c = '?')

/-- `msg.timestamp.isoformat()`, modelled as an injective text encoding. -/
def isoformat (t : Nat) : List Char := (toString t).toList

/-- The 8 values supplied to the INSERT for one message. -/
def insert_message_values (msg : ChatMessage) : List (List Char) :=
  [ChatMessageMod.int_to_text msg.id, ChatMessageMod.int_to_text msg.owner_id,
   ChatMessageMod.int_to_text msg.sender_id, msg.sender_nickname,
   msg.session_name, isoformat msg.timestamp, msg.role.toText, msg.content]

/-- `cursor.execute("DELETE FROM messages WHERE id = ?", (id,))` where the
bound `id` is a value from `saved_messages_ids`: a bare int deletes matching
rows; a fetched row tuple cannot be bound and raises `InterfaceError`. -/
def delete_where_id (param : IdValue) (table : MessagesTable) :
    Except SqlError MessagesTable :=
  match param with
  | .int i => .ok (table.filter (fun r => r.id ≠ i))
  | .row _ => .error .interfaceError

/-- The INSERT of one message: `sqlite3` first checks the binding count, and
the statement supplies 8 values for 7 placeholders. -/
def insert_message (msg : ChatMessage) (table : MessagesTable) :
    Except SqlError MessagesTable :=
  if (insert_message_values msg).length ≠ placeholder_count insert_message_sql then
    .error (.programmingError (placeholder_count insert_message_sql)
      (insert_message_values msg).length)
  else
    .ok (table ++ [msg])

/-- `SqliteChatSession._save_session_messages`: fetch the stored ids for this
`(owner_id, session_name)`, delete stored rows whose id is not in memory, then
insert in-memory messages whose id is not stored. An error aborts the
uncommitted transaction, leaving the table unchanged. -/
def save_session_messages (self : ChatSession) (table : MessagesTable) :
    Except SqlError MessagesTable := do
  let saved_messages_ids : List IdValue :=
    (table.filter (fun r =>
      r.owner_id = self.owner_id ∧ r.session_name = self.name)).map
      (fun r => .row [r.id])
  let current_messages_ids : List IdValue :=
    self.messages_list.map (fun m => .int m.id)
  -- remove messages that are not on the list from the database
  let table ← saved_messages_ids.foldlM
    (fun tbl id =>
      if ¬ (current_messages_ids.contains id) then delete_where_id id tbl else pure tbl)
    table
  -- add missing messages from the list to the database
  let table ← self.messages_list.foldlM
    (fun tbl msg =>
      if ¬ (saved_messages_ids.contains (.int msg.id)) then insert_message msg tbl
      else pure tbl)
    table
  pure table

end ChatSessionMod

namespace BotMod

open PyStr

/-- `ModelConfig` from `src/bot/configuration.py`, restricted to the fields the
pure code paths read. `thinking_pre` models `thinking_prefix` and
`thinking_suffix` models the field of the same name; the `tokenizer` handle is
an external library object and is not modelled. -/
structure ModelConfig where
  thinking_pre : Option (List Char)
  thinking_suffix : Option (List Char)
  context_limit : Option Int
deriving Repr, DecidableEq

/-- The `thinking_tags` local of `_process_raw_response`: present only when the
config exists and has both the thinking prefix and suffix. -/
def thinking_tags_of (model_config : Option ModelConfig) :
    Option (List Char × List Char) :=
  match model_config with
  | some mc =>
    match mc.thinking_pre, mc.thinking_suffix with
    | some p, some s => some (p, s)
    | _, _ => none
  | none => none

/-- Python truthiness of the `(x is not None) and (len(x) > 0)` tests. -/
def truthyOpt (o : Option (List Char)) : Bool :=
  match o with
  | some l => !l.isEmpty
  | none => false

/-- The text an optional field renders as (`None` behaves as empty). -/
def optVal (o : Option (List Char)) : List Char := o.getD []

/-- `_process_raw_response` from `src/bot/__init__.py`. -/
def process_raw_response (raw_response : List Char) (model_config : Option ModelConfig) :
    List Char :=
  let response := ResponseMod.init raw_response (thinking_tags_of model_config)
  if truthyOpt response.content then
    if truthyOpt response.thoughts then
      "*".toList ++ optVal response.thoughts ++ "*\n\n".toList ++ optVal response.content
    else optVal response.content
  else if truthyOpt response.thoughts then
    "*".toList ++ optVal response.thoughts ++ "*".toList
  else "Waiting for response...".toList

end BotMod

namespace BotMod

open PyStr ChatMessageMod ChatSessionMod

/-- `AdminConfig` from `src/bot/configuration.py`. -/
structure AdminConfig where
  id : Int
deriving Repr, DecidableEq

/-- `ModelsConfig`: the default model name and the insertion-ordered mapping
from configured model name to its `ModelConfig`. -/
structure ModelsConfig where
  default_model : List Char
  models : List (List Char × ModelConfig)
deriving Repr, DecidableEq

/-- `BotConfig`, restricted to the fields the modelled paths read
(`discord_api_key`, `bot_prefix`, `edit_delay` and `session_db_path` feed the
platform client, the wall clock and the database driver). -/
structure BotConfig where
  max_messages_for_context : Nat
  default_system_prompt : List Char
deriving Repr, DecidableEq

/-- The top-level `Config` container. -/
structure Config where
  models : ModelsConfig
  admin : AdminConfig
  bot : BotConfig
deriving Repr, DecidableEq

/-- The `session.model in self.bot.config.models.models` dictionary-membership
test. -/
def model_in_configs (models_config : ModelsConfig) (model : List Char) : Bool :=
  (List.lookup model models_config.models).isSome

/-- The role `create_temporary_session` assigns to a history message. -/
def role_for (message : DiscordMessage) (llm_user_id : Int) : MessageRole :=
  if message.author_id = llm_user_id then .ASSISTANT else .USER

/-- `Bot.create_temporary_session` from `src/bot/__init__.py`. The channel
history is the list the platform client yields: most recent message first,
truncated at `limit`. The session is built with
`ChatSession(owner_id=admin.id, name=session_name, model=default_model)`, so
`system_prompt` takes the constructor default `""`. Returns `none` where
Python raises `IndexError` (`messages_history[0]` on an empty history). -/
def create_temporary_session (config : Config) (session_name : List Char)
    (llm_user_id : Int) (channel_history : List DiscordMessage)
    (preserve_last_message : Bool) : Option ChatSession :=
  let session := initSession config.admin.id session_name config.models.default_model []
  let message_limit :=
    config.bot.max_messages_for_context + (if preserve_last_message then 0 else 1)
  let messages_history := channel_history.take message_limit
  let session := ((messages_history.drop 1).reverse).foldl
    (fun s m =>
      add_message s (from_discord_message m (role_for m llm_user_id) s.name s.owner_id))
    session
  if preserve_last_message then
    match messages_history with
    | m :: _ =>
      some (add_message session
        (from_discord_message m (role_for m llm_user_id) session.name session.owner_id))
    | [] => none
  else
    some session

/-- The call in `SteelLlamaCommands.get_session_for_response`
(`src/bot/bot_commands.py`): the fourth positional argument is
`self.bot.config.bot.max_messages_for_context`, which lands in the
`preserve_last_message : bool` parameter and is read by its integer
truthiness. -/
def temporary_session_at_callsite (config : Config) (channel_id : Int)
    (bot_user_id : Int) (channel_history : List DiscordMessage) : Option ChatSession :=
  create_temporary_session config
    ("Temp-".toList ++ int_to_text channel_id)
    bot_user_id channel_history
    (config.bot.max_messages_for_context ≠ 0)

/-- `process_llm_response` from `src/bot/__init__.py`. Chunks are modelled by
their extracted text (`chunk["message"]["content"]`); the wall-clock test
`time.time() - last_edit_time >= bot_config.edit_delay` is modelled by the
oracle `edit_gates`, giving that test's outcome at each chunk. The result is
the sequence of contents passed to `message.edit`, in order. -/
def process_llm_response (chunks : List (List Char)) (edit_gates : List Bool)
    (model_config : Option ModelConfig) : List (List Char) :=
  let r := (chunks.zip edit_gates).foldl
    (fun (acc : List Char × List (List Char)) cg =>
      let response := acc.1 ++ cg.1
      if cg.2 then (response, acc.2 ++ [process_raw_response response model_config])
      else (response, acc.2))
    ([], [])
  if r.1 ≠ [] then r.2 ++ [process_raw_response r.1 model_config] else r.2

end BotMod

namespace BotCommandsMod

open PyStr ChatMessageMod ChatSessionMod BotMod

/-- The model catalogue of the spec: the installed-model list joined with the
configured models (`get_all_models` in `src/bot/chat_model.py` keeps an
installed model iff `configs.models` has an entry under its full name). -/
def catalogue_names (installed : List (List Char)) (models_config : ModelsConfig) :
    List (List Char) :=
  installed.filter (fun name => (List.lookup name models_config.models).isSome)

/-- The `<@{admin_id}>` mention interpolated into error messages. -/
def admin_mention (admin_id : Int) : List Char :=
  "<@".toList ++ int_to_text admin_id ++ ">".toList

/-- The placeholder edit issued when the session's model fails the check in
`get_session_for_response`. -/
def model_unavailable_message (admin_id : Int) (session : ChatSession) : List Char :=
  "**Oops, model \x27".toList ++ session.model ++
    "\x27 for session \x27".toList ++ session.name ++
    "\x27 is not available, ".toList ++ admin_mention admin_id ++
    " fix that shit**".toList

/-- Observable outcome of the respond path from the point where the session is
determined: the contents passed to `response.edit`, and whether the LLM
backend stream is invoked. -/
structure RespondTrace where
  edits : List (List Char)
  backend_invoked : Bool
deriving Repr, DecidableEq

/-- The model gate of `get_session_for_response` (lines 49-54 of
`src/bot/bot_commands.py`) together with `respond`'s reaction: a failed check
edits the placeholder with the admin-ping message and returns `None`, which
makes `respond` return before any backend call; a passed check proceeds to
`"*Processing messages...*"` and the backend stream. -/
def respond_model_gate (config : Config) (session : ChatSession) : RespondTrace :=
  if model_in_configs config.models session.model then
    { edits := ["*Processing messages...*".toList], backend_invoked := true }
  else
    { edits := [model_unavailable_message config.admin.id session],
      backend_invoked := false }

end BotCommandsMod

/-- A concrete session: owner 1, prompt `"P"`, two user messages added. -/
def sessionC9 : ChatSessionMod.ChatSession :=
  ChatSessionMod.add_message
    (ChatSessionMod.add_message
      (ChatSessionMod.initSession 1 "work".toList "qwen3-8b:latest".toList "P".toList)
      ⟨10, 1, 2, "alice".toList, "work".toList, 5, .USER, "hi".toList⟩)
    ⟨11, 1, 3, "bob".toList, "work".toList, 6, .USER, "yo".toList⟩

/-- A one-message session for exercising `_save_session_messages`. -/
def sessionC1 : ChatSessionMod.ChatSession :=
  ChatSessionMod.add_message
    (ChatSessionMod.initSession 1 "work".toList "qwen3-8b:latest".toList [])
    ⟨10, 1, 2, "alice".toList, "work".toList, 5, .USER, "hi".toList⟩

/-- A stored row for the same `(owner_id, session_name)` as `sessionC1`. -/
def storedRowC1 : ChatMessageMod.ChatMessage :=
  ⟨10, 1, 2, "alice".toList, "work".toList, 5, .USER, "hi".toList⟩

/-- A model config carrying both thinking tags. -/
def modelCfgQwen : BotMod.ModelConfig :=
  ⟨some "<think>".toList, some "</think>".toList, none⟩

/-- Config for the temporary-session scenario: admin 7, default model `"m"`,
default system prompt `"SP"`, `max_messages_for_context = 2`. -/
def cfgC4 : BotMod.Config :=
  ⟨⟨"m".toList, [("m".toList, modelCfgQwen)]⟩, ⟨7⟩, ⟨2, "SP".toList⟩⟩

/-- Channel history, most recent first: the triggering message (id 100, from
user 1) above an earlier bot reply (id 99, from the bot user 5) and an older
user message (id 98). -/
def historyC4 : List ChatMessageMod.DiscordMessage :=
  [⟨100, 1, "alice".toList, "hello bot".toList, 30, []⟩,
   ⟨99, 5, "bot".toList, "earlier reply".toList, 20, []⟩,
   ⟨98, 1, "alice".toList, "earlier".toList, 10, []⟩]

/-- Configured models for the respond-path scenario: entries for
`qwen3-8b:latest` and `llama-xx:latest`. -/
def modelsCfgC5 : BotMod.ModelsConfig :=
  ⟨"qwen3-8b:latest".toList,
   [("qwen3-8b:latest".toList, modelCfgQwen), ("llama-xx:latest".toList, modelCfgQwen)]⟩

/-- Full config for the respond-path scenario, admin id 9. -/
def cfgC5 : BotMod.Config := ⟨modelsCfgC5, ⟨9⟩, ⟨2, "SP".toList⟩⟩

/-- Installed models reported by the backend: only `qwen3-8b:latest`. -/
def installedC5 : List (List Char) := ["qwen3-8b:latest".toList]

/-- A session referencing the configured but uninstalled `llama-xx:latest`. -/
def sessionC5 : ChatSessionMod.ChatSession :=
  ChatSessionMod.initSession 1 "work".toList "llama-xx:latest".toList []

/-- A session whose model has no config entry at all. -/
def sessionC5w : ChatSessionMod.ChatSession :=
  ChatSessionMod.initSession 1 "work".toList "gone:latest".toList []

/-- A 2001-character chunk of content. -/
def bigChunkC7 : List Char := List.replicate 2001 'a'

namespace PyStr

/-- `dropWhile` is the identity on lists with no whitespace. -/
theorem dropWhile_space_eq_self {l : List Char} (h : ∀ c ∈ l, pyIsSpace c = false) :
    l.dropWhile pyIsSpace = l := by
  cases l with
  | nil => rfl
  | cons c t => simp [List.dropWhile_cons, h c (List.mem_cons_self c t)]

/-- `lstrip` is the identity on lists with no whitespace. -/
theorem lstrip_eq_self {l : List Char} (h : ∀ c ∈ l, pyIsSpace c = false) :
    lstrip l = l :=
  dropWhile_space_eq_self h

/-- `rstrip` is the identity on lists with no whitespace. -/
theorem rstrip_eq_self {l : List Char} (h : ∀ c ∈ l, pyIsSpace c = false) :
    rstrip l = l := by
  unfold rstrip
  rw [dropWhile_space_eq_self (fun c hc => h c (List.mem_reverse.mp hc)),
    List.reverse_reverse]

/-- `strip` is the identity on lists with no whitespace. -/
theorem strip_eq_self {l : List Char} (h : ∀ c ∈ l, pyIsSpace c = false) :
    strip l = l := by
  unfold strip
  rw [rstrip_eq_self h, lstrip_eq_self h]

end PyStr

namespace PyStr

/-- Unfolding of `pyFind` on `[]`. -/
theorem pyFind_nil (pat : List Char) :
    pyFind [] pat = if pat.isPrefixOf [] then some 0 else none := by
  rw [pyFind]

/-- Unfolding of `pyFind` on a cons. -/
theorem pyFind_cons (c : Char) (t pat : List Char) :
    pyFind (c :: t) pat
      = if pat.isPrefixOf (c :: t) then some 0 else (pyFind t pat).map (· + 1) := by
  rw [pyFind]

/-- `find` returns `none` when the pattern occurs nowhere. -/
theorem pyFind_eq_none_of (l pat : List Char) (h : ∀ j, ¬ occursAt l pat j) :
    pyFind l pat = none := by
  induction l with
  | nil =>
    have h0 : ¬ (pat.isPrefixOf ([] : List Char) = true) := by
      simpa [occursAt] using h 0
    simp [pyFind_nil, h0]
  | cons c t ih =>
    have h0 : ¬ (pat.isPrefixOf (c :: t) = true) := by
      simpa [occursAt] using h 0
    rw [pyFind_cons, if_neg h0, ih (fun j hj => h (j + 1) hj)]
    rfl

/-- `find` returns the index of the first occurrence. -/
theorem pyFind_eq_some_of (l pat : List Char) (i : Nat) (hi : occursAt l pat i)
    (hmin : ∀ j < i, ¬ occursAt l pat j) : pyFind l pat = some i := by
  induction l generalizing i with
  | nil =>
    cases i with
    | zero =>
      have hp : pat.isPrefixOf ([] : List Char) = true := by
        simpa [occursAt] using hi
      simp [pyFind_nil, hp]
    | succ i' =>
      exfalso
      apply hmin 0 (Nat.succ_pos i')
      simpa [occursAt] using hi
  | cons c t ih =>
    by_cases h0 : pat.isPrefixOf (c :: t) = true
    · cases i with
      | zero => simp [pyFind_cons, h0]
      | succ i' =>
        exfalso
        exact hmin 0 (Nat.succ_pos i') (by simpa [occursAt] using h0)
    · rw [pyFind_cons, if_neg h0]
      cases i with
      | zero =>
        exfalso
        exact h0 (by simpa [occursAt] using hi)
      | succ i' =>
        rw [ih i' hi (fun j hj => hmin (j + 1) (Nat.succ_lt_succ hj))]
        rfl

/-- Occurrences inside the slice `T[p : p+l]` are occurrences of `T` that fit
inside the slice. -/
theorem occursAt_slice_iff (T pat : List Char) (p l j : Nat) :
    occursAt ((T.drop p).take l) pat j ↔
      (occursAt T pat (p + j) ∧ pat.length ≤ l - j) := by
  unfold occursAt
  rw [List.drop_take, List.drop_drop]
  constructor
  · intro h
    have h' := List.isPrefixOf_iff_prefix.mp h
    rw [List.prefix_take_iff] at h'
    exact ⟨List.isPrefixOf_iff_prefix.mpr h'.1, h'.2⟩
  · intro h
    exact List.isPrefixOf_iff_prefix.mpr
      (List.prefix_take_iff.mpr ⟨List.isPrefixOf_iff_prefix.mp h.1, h.2⟩)

end PyStr

namespace PyStr

/-- `pyFind` returns 0 on a match at the head. -/
theorem pyFind_of_isPrefixOf (l pat : List Char) (h : pat.isPrefixOf l = true) :
    pyFind l pat = some 0 := by
  cases l with
  | nil => rw [pyFind_nil, if_pos h]
  | cons c t => rw [pyFind_cons, if_pos h]

/-- `pyFind` on the empty list misses any non-empty pattern. -/
theorem pyFind_nil_of_ne (pat : List Char) (h : pat ≠ []) : pyFind [] pat = none := by
  rw [pyFind_nil, if_neg]
  cases pat with
  | nil => exact absurd rfl h
  | cons c t => simp [List.isPrefixOf]

/-- Dropping inside a slice is slicing further along. -/
theorem slice_drop (T : List Char) (p l j : Nat) :
    ((T.drop p).take l).drop j = (T.drop (p + j)).take (l - j) := by
  rw [List.drop_take, List.drop_drop]

end PyStr

namespace LlmResponseMod

/-- `append` when the chunk holds the start tag but not the end tag: the
post-start-tag text joins `thoughts` left-trimmed and thinking starts. -/
theorem append_start_only (st : LLMResponse) (chunk s e : List Char) (fs : Nat)
    (hs : st.thinking_start_tag = some s) (he : st.thinking_end_tag = some e)
    (hfin : st.thinking_finished = false)
    (hfs : PyStr.pyFind chunk s = some fs) (hfe : PyStr.pyFind chunk e = none) :
    append st chunk
      = { st with thoughts := st.thoughts ++ PyStr.lstrip (chunk.drop (fs + s.length)),
                  thinking_started := true } := by
  simp [append, process_thinking, hs, he, hfin, hfs, hfe, thinking_in_progress]

/-- `append` in the Thinking state when the chunk holds neither tag: the whole
chunk joins `thoughts`. -/
theorem append_mid_thinking (st : LLMResponse) (chunk s e : List Char)
    (hs : st.thinking_start_tag = some s) (he : st.thinking_end_tag = some e)
    (hfin : st.thinking_finished = false) (hstarted : st.thinking_started = true)
    (hfs : PyStr.pyFind chunk s = none) (hfe : PyStr.pyFind chunk e = none) :
    append st chunk = { st with thoughts := st.thoughts ++ chunk } := by
  simp [append, process_thinking, hs, he, hfin, hstarted, hfs, hfe, thinking_in_progress]

/-- `append` in the Idle state when the chunk holds neither tag: the whole
chunk joins `content`. -/
theorem append_idle_no_tags (st : LLMResponse) (chunk s e : List Char)
    (hs : st.thinking_start_tag = some s) (he : st.thinking_end_tag = some e)
    (hfin : st.thinking_finished = false) (hstarted : st.thinking_started = false)
    (hfs : PyStr.pyFind chunk s = none) (hfe : PyStr.pyFind chunk e = none) :
    append st chunk = { st with content := st.content ++ chunk } := by
  simp [append, process_thinking, hs, he, hfin, hstarted, hfs, hfe, thinking_in_progress]

/-- `append` when the chunk holds both tags: the span between the tags joins
`thoughts` stripped, the post-end-tag text joins `content` left-trimmed, and
thinking starts and finishes. -/
theorem append_both_tags (st : LLMResponse) (chunk s e : List Char) (fs fe : Nat)
    (hs : st.thinking_start_tag = some s) (he : st.thinking_end_tag = some e)
    (hfin : st.thinking_finished = false)
    (hfs : PyStr.pyFind chunk s = some fs) (hfe : PyStr.pyFind chunk e = some fe) :
    append st chunk
      = { st with thoughts := st.thoughts ++ PyStr.strip (PyStr.pySlice chunk (fs + s.length) fe),
                  content := st.content ++ PyStr.lstrip (chunk.drop (fe + e.length)),
                  thinking_started := true, thinking_finished := true } := by
  by_cases h : chunk.length ≤ fe + e.length
  · simp [append, process_thinking, hs, he, hfin, hfs, hfe, thinking_in_progress, h,
      List.drop_eq_nil_of_le h, PyStr.lstrip]
  · simp [append, process_thinking, hs, he, hfin, hfs, hfe, thinking_in_progress, h]

/-- `append` when the chunk holds the end tag but not the start tag (in any
not-finished state): the pre-end-tag text joins `thoughts` right-trimmed, the
post-end-tag text joins `content` left-trimmed, and thinking finishes. -/
theorem append_end_only (st : LLMResponse) (chunk s e : List Char) (fe : Nat)
    (hs : st.thinking_start_tag = some s) (he : st.thinking_end_tag = some e)
    (hfin : st.thinking_finished = false)
    (hfs : PyStr.pyFind chunk s = none) (hfe : PyStr.pyFind chunk e = some fe) :
    append st chunk
      = { st with thoughts := st.thoughts ++ PyStr.rstrip (chunk.take fe),
                  content := st.content ++ PyStr.lstrip (chunk.drop (fe + e.length)),
                  thinking_finished := true } := by
  by_cases h : chunk.length ≤ fe + e.length
  · simp [append, process_thinking, hs, he, hfin, hfs, hfe, thinking_in_progress, h,
      List.drop_eq_nil_of_le h, PyStr.lstrip]
  · simp [append, process_thinking, hs, he, hfin, hfs, hfe, thinking_in_progress, h]

/-- `append` in the Done state: the whole chunk joins `content` verbatim. -/
theorem append_finished (st : LLMResponse) (chunk s e : List Char)
    (hs : st.thinking_start_tag = some s) (he : st.thinking_end_tag = some e)
    (hfin : st.thinking_finished = true) :
    append st chunk = { st with content := st.content ++ chunk } := by
  simp [append, process_thinking, hs, he, hfin, thinking_in_progress]

end LlmResponseMod

namespace LlmResponseMod

open PyStr

/-- Dropping `p ∈ [|s|, |s|+|a|]` characters of the full text leaves a suffix
of the thinking span followed by the end tag and content. -/
theorem drop_fullText_thinking (s e a b : List Char) (p : Nat)
    (h1 : s.length ≤ p) (h2 : p ≤ s.length + a.length) :
    (fullText s e a b).drop p = a.drop (p - s.length) ++ (e ++ b) := by
  have hp : p = s.length + (p - s.length) := by omega
  rw [fullText, hp, List.drop_append, List.drop_append_of_le_length (by omega)]
  rw [Nat.add_sub_cancel_left]

/-- Dropping `p ≥ |s|+|a|+|e|` characters of the full text leaves a suffix of
the content span. -/
theorem drop_fullText_content (s e a b : List Char) (p : Nat)
    (h : s.length + a.length + e.length ≤ p) :
    (fullText s e a b).drop p = b.drop (p - (s.length + a.length + e.length)) := by
  have hp : p = s.length + (a.length + (e.length + (p - (s.length + a.length + e.length)))) := by
    omega
  rw [fullText, hp, List.drop_append, List.drop_append, List.drop_append]
  have h2 : s.length + (a.length + (e.length + (p - (s.length + a.length + e.length))))
      - (s.length + a.length + e.length) = p - (s.length + a.length + e.length) := by omega
  rw [h2]

/-- No-whitespace hypotheses restrict to the four spans. -/
theorem no_space_parts (s e a b : List Char)
    (hws : ∀ c ∈ fullText s e a b, pyIsSpace c = false) :
    (∀ c ∈ a, pyIsSpace c = false) ∧ (∀ c ∈ b, pyIsSpace c = false) := by
  constructor
  · intro c hc
    exact hws c (by simp [fullText, hc])
  · intro c hc
    exact hws c (by simp [fullText, hc])

end LlmResponseMod

namespace LlmResponseMod

open PyStr

/-- The start tag does not occur in a slice starting after position 0 when it
occurs only at the head of the full text. -/
theorem find_start_none (s e a b : List Char) (p l : Nat) (hp : 0 < p)
    (honly : ∀ q, 0 < q → ¬ occursAt (fullText s e a b) s q) :
    pyFind (((fullText s e a b).drop p).take l) s = none := by
  apply pyFind_eq_none_of
  intro j hj
  rw [occursAt_slice_iff] at hj
  exact honly (p + j) (by omega) hj.1

/-- The start tag heads a slice that starts at 0 and is long enough. -/
theorem find_start_zero (s e a b : List Char) (l : Nat) (hl : s.length ≤ l) :
    pyFind (((fullText s e a b).drop 0).take l) s = some 0 := by
  apply pyFind_of_isPrefixOf
  rw [List.drop_zero]
  exact List.isPrefixOf_iff_prefix.mpr
    (List.prefix_take_iff.mpr ⟨List.prefix_append s (a ++ (e ++ b)), hl⟩)

/-- The end tag does not occur in a slice lying before its first occurrence. -/
theorem find_end_none (s e a b : List Char) (p l : Nat) (he : e ≠ [])
    (hq : p + l ≤ s.length + a.length)
    (hfirst : ∀ q, q < s.length + a.length → ¬ occursAt (fullText s e a b) e q) :
    pyFind (((fullText s e a b).drop p).take l) e = none := by
  apply pyFind_eq_none_of
  intro j hj
  rw [occursAt_slice_iff] at hj
  have hlen : 0 < e.length := List.length_pos.mpr he
  have hj2 := hj.2
  exact hfirst (p + j) (by omega) hj.1

/-- A slice covering the end-tag occurrence finds it first, at offset
`|s| + |a| - p`. -/
theorem find_end_at (s e a b : List Char) (p l : Nat)
    (hpe : p ≤ s.length + a.length)
    (hqe : s.length + a.length + e.length ≤ p + l)
    (hfirst : ∀ q, q < s.length + a.length → ¬ occursAt (fullText s e a b) e q) :
    pyFind (((fullText s e a b).drop p).take l) e
      = some (s.length + a.length - p) := by
  apply pyFind_eq_some_of
  · rw [occursAt_slice_iff]
    constructor
    · have hES : p + (s.length + a.length - p) = s.length + a.length := by omega
      rw [hES]
      unfold occursAt fullText
      rw [List.drop_append, List.drop_left]
      exact List.isPrefixOf_iff_prefix.mpr (List.prefix_append e b)
    · omega
  · intro j hj hocc
    rw [occursAt_slice_iff] at hocc
    exact hfirst (p + j) (by omega) hocc.1

end LlmResponseMod

namespace LlmResponseMod

open PyStr

/-- One aligned chunk advances the parser from the reference state at `p` to
the reference state at `p + l`. -/
theorem append_refState (s e a b : List Char) (hs : s ≠ []) (he : e ≠ [])
    (hws : ∀ c ∈ fullText s e a b, pyIsSpace c = false)
    (honly : ∀ q, 0 < q → ¬ occursAt (fullText s e a b) s q)
    (hfirst : ∀ q, q < s.length + a.length → ¬ occursAt (fullText s e a b) e q)
    (p l : Nat) (hp : aligned s e a p) (hq : aligned s e a (p + l))
    (hle : p + l ≤ (fullText s e a b).length) :
    append (refState s e a b p) (((fullText s e a b).drop p).take l)
      = refState s e a b (p + l) := by
  obtain ⟨hp1, hp2⟩ := hp
  obtain ⟨hq1, hq2⟩ := hq
  have hS : 0 < s.length := List.length_pos.mpr hs
  have hE : 0 < e.length := List.length_pos.mpr he
  have hTlen : (fullText s e a b).length = s.length + a.length + e.length + b.length := by
    simp [fullText]
    omega
  rw [hTlen] at hle
  have hwa := (no_space_parts s e a b hws).1
  have hwb := (no_space_parts s e a b hws).2
  by_cases hpz : p = 0
  · subst hpz
    simp only [Nat.zero_add] at hq1 hq2 hle ⊢
    by_cases hlz : l = 0
    · -- empty chunk in the initial state
      subst hlz
      rw [List.take_zero]
      rw [append_idle_no_tags _ _ s e rfl rfl (decide_eq_false (by omega))
        (decide_eq_false (by omega)) (pyFind_nil_of_ne s hs) (pyFind_nil_of_ne e he)]
      simp [refState]
    · have hSl : s.length ≤ l := by
        rcases hq1 with h | h
        · exact absurd h hlz
        · exact h
      rcases hq2 with hq2 | hq2
      · -- the chunk is the start tag plus a prefix of the thinking span
        rw [append_start_only _ _ s e 0 rfl rfl (decide_eq_false (by omega))
          (find_start_zero s e a b l hSl)
          (find_end_none s e a b 0 l he (by omega) hfirst)]
        have hdrop : (((fullText s e a b).drop 0).take l).drop (0 + s.length)
            = a.take (l - s.length) := by
          rw [Nat.zero_add, slice_drop, Nat.zero_add,
            drop_fullText_thinking s e a b s.length (le_refl _) (by omega),
            Nat.sub_self, List.drop_zero]
          exact List.take_append_of_le_length (by omega)
        rw [hdrop, lstrip_eq_self (fun c hc => hwa c (List.mem_of_mem_take hc))]
        have hc0 : l - (s.length + a.length + e.length) = 0 := by omega
        have hd1 : decide (s.length ≤ l) = true := decide_eq_true hSl
        have hd2 : decide (s.length + a.length + e.length ≤ l) = false :=
          decide_eq_false (by omega)
        have hd3 : decide (s.length + a.length + e.length ≤ 0) = false :=
          decide_eq_false (by omega)
        simp only [refState, LLMResponse.mk.injEq, Nat.zero_sub, List.take_zero,
          List.nil_append, List.append_nil, hc0, hd1, hd2, hd3, eq_self_iff_true,
          and_true, true_and, and_self]
      · -- the chunk covers both tags
        rw [append_both_tags _ _ s e 0 (s.length + a.length) rfl rfl
          (decide_eq_false (by omega)) (find_start_zero s e a b l hSl)
          (find_end_at s e a b 0 l (by omega) (by omega) hfirst)]
        have hslice : pySlice (((fullText s e a b).drop 0).take l)
            (0 + s.length) (s.length + a.length) = a := by
          unfold pySlice
          rw [List.drop_zero, List.take_take, Nat.min_eq_left (by omega), Nat.zero_add]
          have h1 : s.length + a.length = s.length + a.length := rfl
          rw [fullText, List.take_append, List.take_append_of_le_length (le_refl _),
            List.drop_append_of_le_length (le_refl _)]
          simp
        have hdrop : (((fullText s e a b).drop 0).take l).drop
            (s.length + a.length + e.length)
            = b.take (l - (s.length + a.length + e.length)) := by
          rw [slice_drop, Nat.zero_add,
            drop_fullText_content s e a b (s.length + a.length + e.length) (le_refl _),
            Nat.sub_self, List.drop_zero]
        rw [hslice, strip_eq_self hwa, hdrop,
          lstrip_eq_self (fun c hc => hwb c (List.mem_of_mem_take hc))]
        have ha : a.take (l - s.length) = a := List.take_of_length_le (by omega)
        have hd1 : decide (s.length ≤ l) = true := decide_eq_true hSl
        have hd2 : decide (s.length + a.length + e.length ≤ l) = true :=
          decide_eq_true (by omega)
        simp only [refState, LLMResponse.mk.injEq, Nat.zero_sub, List.take_zero,
          List.nil_append, List.append_nil, ha, hd1, hd2, eq_self_iff_true,
          and_true, true_and, and_self]
  · -- p > 0, hence |s| ≤ p
    have hSp : s.length ≤ p := by
      rcases hp1 with h | h
      · exact absurd h hpz
      · exact h
    by_cases hpfin : s.length + a.length + e.length ≤ p
    · -- the parser is Done: content chunks pass through verbatim
      rw [append_finished _ _ s e rfl rfl (decide_eq_true hpfin)]
      have hchunk : ((fullText s e a b).drop p).take l
          = (b.drop (p - (s.length + a.length + e.length))).take l := by
        rw [drop_fullText_content s e a b p hpfin]
      rw [hchunk]
      have ha1 : a.take (p - s.length) = a := List.take_of_length_le (by omega)
      have ha2 : a.take (p + l - s.length) = a := List.take_of_length_le (by omega)
      have hb : b.take (p - (s.length + a.length + e.length))
          ++ (b.drop (p - (s.length + a.length + e.length))).take l
          = b.take (p + l - (s.length + a.length + e.length)) := by
        rw [← List.take_add]
        congr 1
        omega
      have hd1 : decide (s.length ≤ p) = true := decide_eq_true (by omega)
      have hd2 : decide (s.length ≤ p + l) = true := decide_eq_true (by omega)
      have hd3 : decide (s.length + a.length + e.length ≤ p) = true :=
        decide_eq_true hpfin
      have hd4 : decide (s.length + a.length + e.length ≤ p + l) = true :=
        decide_eq_true (by omega)
      simp only [refState, LLMResponse.mk.injEq, ha1, ha2, hb, hd1, hd2, hd3, hd4,
        eq_self_iff_true, and_true, true_and, and_self]
    · -- |s| ≤ p ≤ |s|+|a|: the parser is in the Thinking state
      have hpe : p ≤ s.length + a.length := by
        rcases hp2 with h | h
        · exact h
        · exact absurd h hpfin
      rcases hq2 with hq2 | hq2
      · -- the chunk stays inside the thinking span
        rw [append_mid_thinking _ _ s e rfl rfl (decide_eq_false (by omega))
          (decide_eq_true hSp)
          (find_start_none s e a b p l (by omega) honly)
          (find_end_none s e a b p l he (by omega) hfirst)]
        have hchunk : ((fullText s e a b).drop p).take l
            = (a.drop (p - s.length)).take l := by
          rw [drop_fullText_thinking s e a b p hSp hpe]
          exact List.take_append_of_le_length (by simp; omega)
        rw [hchunk]
        have hth : a.take (p - s.length) ++ (a.drop (p - s.length)).take l
            = a.take (p + l - s.length) := by
          rw [← List.take_add]
          congr 1
          omega
        have hb1 : p - (s.length + a.length + e.length) = 0 := by omega
        have hb2 : p + l - (s.length + a.length + e.length) = 0 := by omega
        have hd1 : decide (s.length ≤ p) = true := decide_eq_true hSp
        have hd2 : decide (s.length ≤ p + l) = true := decide_eq_true (by omega)
        have hd3 : decide (s.length + a.length + e.length ≤ p) = false :=
          decide_eq_false (by omega)
        have hd4 : decide (s.length + a.length + e.length ≤ p + l) = false :=
          decide_eq_false (by omega)
        simp only [refState, LLMResponse.mk.injEq, hth, hb1, hb2, List.take_zero,
          hd1, hd2, hd3, hd4, eq_self_iff_true, and_true, true_and, and_self]
      · -- the chunk finishes the thinking span and may start the content
        rw [append_end_only _ _ s e (s.length + a.length - p) rfl rfl
          (decide_eq_false (by omega))
          (find_start_none s e a b p l (by omega) honly)
          (find_end_at s e a b p l hpe (by omega) hfirst)]
        have htake : (((fullText s e a b).drop p).take l).take (s.length + a.length - p)
            = a.drop (p - s.length) := by
          rw [List.take_take, Nat.min_eq_left (by omega),
            drop_fullText_thinking s e a b p hSp hpe]
          have hlend : s.length + a.length - p = (a.drop (p - s.length)).length := by
            simp
            omega
          rw [hlend, List.take_left]
        have hdrop : (((fullText s e a b).drop p).take l).drop
            (s.length + a.length - p + e.length)
            = b.take (p + l - (s.length + a.length + e.length)) := by
          rw [slice_drop]
          have hidx : p + (s.length + a.length - p + e.length)
              = s.length + a.length + e.length := by omega
          rw [hidx, drop_fullText_content s e a b _ (le_refl _), Nat.sub_self,
            List.drop_zero]
          congr 1
          omega
        rw [htake, rstrip_eq_self (fun c hc => hwa c (List.mem_of_mem_drop hc)),
          hdrop, lstrip_eq_self (fun c hc => hwb c (List.mem_of_mem_take hc))]
        have hth : a.take (p - s.length) ++ a.drop (p - s.length) = a :=
          List.take_append_drop _ _
        have ha2 : a.take (p + l - s.length) = a := List.take_of_length_le (by omega)
        have hb1 : p - (s.length + a.length + e.length) = 0 := by omega
        have hd1 : decide (s.length ≤ p) = true := decide_eq_true hSp
        have hd2 : decide (s.length ≤ p + l) = true := decide_eq_true (by omega)
        have hd3 : decide (s.length + a.length + e.length ≤ p + l) = true :=
          decide_eq_true (by omega)
        simp only [refState, LLMResponse.mk.injEq, hth, ha2, hb1, List.take_zero,
          List.nil_append, hd1, hd2, hd3, eq_self_iff_true, and_true, true_and,
          and_self]

end LlmResponseMod

namespace LlmResponseMod

open PyStr

/-- Feeding aligned chunks that cover `fullText` from position `p` drives the
parser from the reference state at `p` to the final reference state. -/
theorem feed_refState (s e a b : List Char) (hs : s ≠ []) (he : e ≠ [])
    (hws : ∀ c ∈ fullText s e a b, pyIsSpace c = false)
    (honly : ∀ q, 0 < q → ¬ occursAt (fullText s e a b) s q)
    (hfirst : ∀ q, q < s.length + a.length → ¬ occursAt (fullText s e a b) e q)
    (cs : List (List Char)) (p : Nat) (hp : aligned s e a p)
    (hple : p ≤ (fullText s e a b).length)
    (hjoin : cs.flatten = (fullText s e a b).drop p)
    (halign : ∀ i, i ≤ cs.length → aligned s e a (p + sumLen (cs.take i))) :
    feed (refState s e a b p) cs
      = refState s e a b (fullText s e a b).length := by
  induction cs generalizing p with
  | nil =>
    have hdrop : (fullText s e a b).drop p = [] := by
      rw [← hjoin]
      rfl
    have hplen : (fullText s e a b).length ≤ p := by
      have hlen := congrArg List.length hdrop
      simp only [List.length_drop, List.length_nil] at hlen
      omega
    have hpeq : p = (fullText s e a b).length := le_antisymm hple hplen
    rw [← hpeq]
    rfl
  | cons c rest ih =>
    have hc : c = ((fullText s e a b).drop p).take c.length := by
      rw [← hjoin, List.flatten_cons, List.take_left]
    have hlens := congrArg List.length hjoin
    simp only [List.flatten_cons, List.length_append, List.length_drop] at hlens
    have hqle : p + c.length ≤ (fullText s e a b).length := by omega
    have hq : aligned s e a (p + c.length) := by
      have h1 := halign 1 (by simp)
      simpa [sumLen] using h1
    have hstep : append (refState s e a b p) c = refState s e a b (p + c.length) := by
      conv_lhs => rw [hc]
      exact append_refState s e a b hs he hws honly hfirst p c.length hp hq hqle
    have hfeed : feed (refState s e a b p) (c :: rest)
        = feed (append (refState s e a b p) c) rest := rfl
    rw [hfeed, hstep]
    apply ih (p + c.length) hq hqle
    · rw [← List.drop_drop]
      rw [← hjoin, List.flatten_cons, List.drop_left]
    · intro i hi
      have h2 := halign (i + 1) (by simpa using hi)
      have h3 : sumLen ((c :: rest).take (i + 1)) = c.length + sumLen (rest.take i) := by
        simp [sumLen]
      rw [h3] at h2
      rw [Nat.add_assoc]
      exact h2

end LlmResponseMod

namespace LlmResponseMod

/-- The embedding reproduces the expectations of
`src/tests/llm_response_tests.py` (initialization, plain content, thinking
with and without trailing content, partial thinking, multi-chunk appends). -/
theorem llm_response_test_conformance :
    (append (init none none) "Hello world".toList).content = "Hello world".toList ∧
    (append (init (some "<thinking>".toList) (some "</thinking>".toList))
      "<thinking>Thinking about the answer</thinking>Content after thinking".toList).thoughts
      = "Thinking about the answer".toList ∧
    (append (init (some "<thinking>".toList) (some "</thinking>".toList))
      "<thinking>Thinking about the answer</thinking>Content after thinking".toList).content
      = "Content after thinking".toList ∧
    (append (init (some "<thinking>".toList) (some "</thinking>".toList))
      "<thinking> Thinking about the answer".toList).thoughts
      = "Thinking about the answer".toList ∧
    thinking_in_progress (append (init (some "<thinking>".toList) (some "</thinking>".toList))
      "<thinking> Thinking about the answer".toList) = true ∧
    (feed (init (some "<thinking>".toList) (some "</thinking>".toList))
      ["<thinking>Thinking about ".toList, " answer</thinking>".toList]).thoughts
      = "Thinking about  answer".toList ∧
    (append (init (some "<thinking>".toList) none) "<thinking>Content".toList).content
      = "<thinking>Content".toList ∧
    (feed (init (some "<thinking>".toList) (some "</thinking>".toList))
      ["<thinking>This is a thought, ".toList, "more thoughts ".toList,
       "and that\x27s all </thinking>And this is content".toList,
       " and then some".toList]).thoughts
      = "This is a thought, more thoughts and that\x27s all".toList ∧
    (feed (init (some "<thinking>".toList) (some "</thinking>".toList))
      ["<thinking>This is a thought, ".toList, "more thoughts ".toList,
       "and that\x27s all </thinking>And this is content".toList,
       " and then some".toList]).content
      = "And this is content and then some".toList := by
  decide

end LlmResponseMod

/-- C8: `split_model_name` returns `(None, None)` for the empty string,
`(None, None)` for `"a:b:c"`, `("a", "b")` for `"a:b"`, and `("a", None)`
for `"a"`. -/
theorem split_model_name_boundary_cases :
    ChatModelMod.split_model_name "".toList = (none, none) ∧
    ChatModelMod.split_model_name "a:b:c".toList = (none, none) ∧
    ChatModelMod.split_model_name "a:b".toList = (some "a".toList, some "b".toList) ∧
    ChatModelMod.split_model_name "a".toList = (some "a".toList, none) := by
  decide

/-- C10 counterexample: from the Idle state, for chunk `"a</think> b"` the code
sets `content` to the post-end-tag text *left-trimmed* (`"b"`), not to the raw
post-end-tag text `" b"` that the claim describes. -/
theorem idle_end_tag_content_counterexample :
    (LlmResponseMod.append
      (LlmResponseMod.init (some "<think>".toList) (some "</think>".toList))
      "a</think> b".toList).content = "b".toList ∧
    (LlmResponseMod.append
      (LlmResponseMod.init (some "<think>".toList) (some "</think>".toList))
      "a</think> b".toList).content ≠ " b".toList := by
  decide

/-- C10 (amended): for a parser configured with both thinking tags that is
still Idle (start tag never seen), appending a chunk that contains the end tag
but not the start tag moves the parser to Done; the text before the end tag is
added to `thoughts` right-trimmed and the text after the end tag is added to
`content` left-trimmed. -/
theorem idle_end_tag_append (self : LlmResponseMod.LLMResponse)
    (chunk start_tag end_tag : List Char) (te : Nat)
    (hs : self.thinking_start_tag = some start_tag)
    (he : self.thinking_end_tag = some end_tag)
    (hst : self.thinking_started = false)
    (hfin : self.thinking_finished = false)
    (hnostart : PyStr.pyFind chunk start_tag = none)
    (hend : PyStr.pyFind chunk end_tag = some te) :
    (LlmResponseMod.append self chunk).thinking_finished = true ∧
    (LlmResponseMod.append self chunk).thoughts
      = self.thoughts ++ PyStr.rstrip (chunk.take te) ∧
    (LlmResponseMod.append self chunk).content
      = self.content ++ PyStr.lstrip (chunk.drop (te + end_tag.length)) := by
  by_cases h : chunk.length ≤ te + end_tag.length
  · simp [LlmResponseMod.append, LlmResponseMod.process_thinking, hs, he, hst, hfin,
      hnostart, hend, LlmResponseMod.thinking_in_progress, h,
      List.drop_eq_nil_of_le h, PyStr.lstrip]
  · simp [LlmResponseMod.append, LlmResponseMod.process_thinking, hs, he, hst, hfin,
      hnostart, hend, LlmResponseMod.thinking_in_progress, h]

/-- Witness for `idle_end_tag_append` at a concrete Idle parser and chunk. -/
theorem idle_end_tag_append_witness :
    (LlmResponseMod.append
      (LlmResponseMod.init (some "<think>".toList) (some "</think>".toList))
      "hmm </think>  ok".toList).thinking_finished = true ∧
    (LlmResponseMod.append
      (LlmResponseMod.init (some "<think>".toList) (some "</think>".toList))
      "hmm </think>  ok".toList).thoughts
      = [] ++ PyStr.rstrip ("hmm </think>  ok".toList.take 4) ∧
    (LlmResponseMod.append
      (LlmResponseMod.init (some "<think>".toList) (some "</think>".toList))
      "hmm </think>  ok".toList).content
      = [] ++ PyStr.lstrip ("hmm </think>  ok".toList.drop (4 + "</think>".toList.length)) :=
  idle_end_tag_append _ _ _ _ 4 rfl rfl rfl rfl (by decide) (by decide)

/-- C3 counterexample: with both content and thoughts empty the renderer
returns the plain string `"Waiting for response..."`, not the italicised
`"*Waiting for response...*"` the claim describes. -/
theorem waiting_message_not_italicised :
    BotMod.process_raw_response "".toList none = "Waiting for response...".toList ∧
    BotMod.process_raw_response "".toList none ≠ "*Waiting for response...*".toList := by
  decide

/-- C3 (amended): the renderer returns `"*{thoughts}*\n\n{content}"` when both
content and thoughts are non-empty, content alone when only content is
non-empty, `"*{thoughts}*"` when only thoughts are non-empty, and the plain
(non-italicised) string `"Waiting for response..."` when both are empty. -/
theorem process_raw_response_render_cases (raw : List Char)
    (mc : Option BotMod.ModelConfig) (t c : List Char)
    (ht : BotMod.optVal (ResponseMod.init raw (BotMod.thinking_tags_of mc)).thoughts = t)
    (hc : BotMod.optVal (ResponseMod.init raw (BotMod.thinking_tags_of mc)).content = c) :
    (c ≠ [] → t ≠ [] →
      BotMod.process_raw_response raw mc = "*".toList ++ t ++ "*\n\n".toList ++ c) ∧
    (c ≠ [] → t = [] → BotMod.process_raw_response raw mc = c) ∧
    (c = [] → t ≠ [] →
      BotMod.process_raw_response raw mc = "*".toList ++ t ++ "*".toList) ∧
    (c = [] → t = [] →
      BotMod.process_raw_response raw mc = "Waiting for response...".toList) := by
  subst ht hc
  unfold BotMod.process_raw_response
  cases hco : (ResponseMod.init raw (BotMod.thinking_tags_of mc)).content with
  | none =>
    cases hth : (ResponseMod.init raw (BotMod.thinking_tags_of mc)).thoughts with
    | none => simp [BotMod.truthyOpt, BotMod.optVal, hco, hth]
    | some tv =>
      by_cases h : tv = [] <;> simp [BotMod.truthyOpt, BotMod.optVal, hco, hth, h]
  | some cv =>
    cases hth : (ResponseMod.init raw (BotMod.thinking_tags_of mc)).thoughts with
    | none =>
      by_cases h : cv = [] <;> simp [BotMod.truthyOpt, BotMod.optVal, hco, hth, h]
    | some tv =>
      by_cases h : cv = [] <;> by_cases h2 : tv = [] <;>
        simp [BotMod.truthyOpt, BotMod.optVal, hco, hth, h, h2]

/-- Witness for `process_raw_response_render_cases`: a response with both
thoughts and content renders as italicised thoughts above content. -/
theorem process_raw_response_render_cases_witness :
    "yo".toList ≠ ([] : List Char) ∧ "hi".toList ≠ ([] : List Char) ∧
    BotMod.process_raw_response "<think>hi</think>yo".toList
        (some ⟨some "<think>".toList, some "</think>".toList, none⟩)
      = "*".toList ++ "hi".toList ++ "*\n\n".toList ++ "yo".toList :=
  ⟨by decide, by decide,
    (process_raw_response_render_cases "<think>hi</think>yo".toList
      (some ⟨some "<think>".toList, some "</think>".toList, none⟩)
      "hi".toList "yo".toList (by decide) (by decide)).1 (by decide) (by decide)⟩

/-- C6: after any completed `mark_as_active` call, starting from any table
state, the `active_sessions` table holds exactly one row for that owner — the
session just marked — so any prior mark for the same owner is cleared, and in
a sequence of calls the surviving row names the most recent one. -/
theorem mark_as_active_single_row (table : ChatSessionMod.ActiveSessionsTable)
    (owner_id : Int) (name : List Char) :
    (ChatSessionMod.mark_as_active owner_id name table).filter
        (fun row => row.1 = owner_id)
      = [(owner_id, name)] := by
  unfold ChatSessionMod.mark_as_active
  rw [List.filter_append, List.filter_filter]
  simp only [List.filter_cons, List.filter_nil, decide_eq_true_eq]
  rw [List.filter_eq_nil_iff.mpr ?_]
  · simp
  · intro a _
    simp

/-- C9: `messages (some n)` is the oldest-first prefix (`_messages[:n]`) of the
in-memory list — not the most recent `n` — with the synthetic system message
(when the prompt is non-empty) at position 0; `to_llm_messages_list` and
`estimate_length` with a limit operate on that same prefix. -/
theorem messages_limit_oldest_first (s : ChatSessionMod.ChatSession) (n : Nat) :
    ChatSessionMod.messages s (some n) = s.messages_list.take n ∧
    ChatSessionMod.messages s (some n) <+: ChatSessionMod.messages s none ∧
    ChatSessionMod.to_llm_messages_list s (some n)
      = (ChatSessionMod.to_llm_messages_list s none).take n ∧
    ChatSessionMod.estimate_length s (some n)
      = (((ChatSessionMod.messages s none).map
          (fun m => ChatSessionMod.count_words_and_special_chars m.toText)).take n).sum ∧
    (0 < n → 0 < s.system_prompt.length →
      (ChatSessionMod.messages (ChatSessionMod.update_system_prompt s) (some n)).head?
        = some (ChatSessionMod.system_message s)) := by
  refine ⟨rfl, List.take_prefix n s.messages_list, ?_, ?_, ?_⟩
  · simp [ChatSessionMod.to_llm_messages_list, ChatSessionMod.messages, List.map_take]
  · simp [ChatSessionMod.estimate_length, ChatSessionMod.messages, List.map_take]
  · intro hn hp
    unfold ChatSessionMod.update_system_prompt
    simp only [hp, if_pos]
    obtain ⟨m, rfl⟩ := Nat.exists_eq_succ_of_ne_zero (Nat.pos_iff_ne_zero.mp hn)
    simp [ChatSessionMod.messages, List.take_succ_cons]

/-- Witness for `messages_limit_oldest_first` on a concrete two-message session

with a non-empty system prompt. -/
theorem messages_limit_oldest_first_witness :
    ChatSessionMod.messages sessionC9 (some 2) = sessionC9.messages_list.take 2 ∧
    ChatSessionMod.messages sessionC9 (some 2) <+: ChatSessionMod.messages sessionC9 none ∧
    ChatSessionMod.to_llm_messages_list sessionC9 (some 2)
      = (ChatSessionMod.to_llm_messages_list sessionC9 none).take 2 ∧
    ChatSessionMod.estimate_length sessionC9 (some 2)
      = (((ChatSessionMod.messages sessionC9 none).map
          (fun m => ChatSessionMod.count_words_and_special_chars m.toText)).take 2).sum ∧
    (0 < 2 → 0 < sessionC9.system_prompt.length →
      (ChatSessionMod.messages (ChatSessionMod.update_system_prompt sessionC9) (some 2)).head?
        = some (ChatSessionMod.system_message sessionC9)) :=
  messages_limit_oldest_first sessionC9 2

/-- C1: evaluation of `_save_session_messages` at the failing inputs. Saving a
session with one message into an empty store hits the INSERT whose statement
has 7 `?` placeholders but is given 8 values (`sqlite3.ProgrammingError`);
with a stored row present, the id sync compares fetched row tuples against
bare ints, always mismatches, and the DELETE binds a tuple parameter
(`sqlite3.InterfaceError`). Either way the sync raises instead of storing the
in-memory message ids. -/
theorem save_session_messages_always_raises :
    ChatSessionMod.save_session_messages sessionC1 []
      = .error (.programmingError 7 8) ∧
    ChatSessionMod.save_session_messages sessionC1 [storedRowC1]
      = .error .interfaceError :=
  ⟨rfl, rfl⟩

/-- C4: evaluation of the temporary-session path at a concrete invocation.
The constructed session gets owner = admin id, name = `"Temp-42"` and the
default model, but its system prompt is the constructor default `""`, not the
configured `"SP"`; and because the call site passes
`max_messages_for_context` (= 2, truthy) as `preserve_last_message`, only 2
messages are pulled and the triggering message (id 100) is included, last. -/
theorem temporary_session_defaults_divergence :
    "SP".toList ≠ ([] : List Char) ∧
    (BotMod.temporary_session_at_callsite cfgC4 42 5 historyC4).map
        (fun s => (s.owner_id, s.name, s.model, s.system_prompt,
                   s.messages_list.map (fun m => m.id)))
      = some (7, "Temp-42".toList, "m".toList, [], [99, 100]) :=
  ⟨by decide, rfl⟩

/-- C5 counterexample: `llama-xx:latest` is absent from the catalogue (the
installed list joined with configs), yet the respond path passes the gate,
edits `"*Processing messages...*"` and invokes the backend with no admin
ping — the code checks the configured-models mapping, not the catalogue. -/
theorem respond_gate_uninstalled_model_counterexample :
    (BotCommandsMod.catalogue_names installedC5 modelsCfgC5).contains
        "llama-xx:latest".toList = false ∧
    sessionC5.model = "llama-xx:latest".toList ∧
    (BotCommandsMod.respond_model_gate cfgC5 sessionC5).backend_invoked = true ∧
    (BotCommandsMod.respond_model_gate cfgC5 sessionC5).edits
      = ["*Processing messages...*".toList] := by
  decide

/-- C5 (amended): the respond path aborts exactly when the session's model has
no entry in the configured-models mapping `config.models.models`: the
placeholder is edited to the model-unavailable message — which contains the

admin mention `<@{admin_id}>` — and the LLM backend is not invoked. -/
theorem respond_gate_unconfigured_model (config : BotMod.Config)
    (session : ChatSessionMod.ChatSession)
    (h : BotMod.model_in_configs config.models session.model = false) :
    BotCommandsMod.respond_model_gate config session
      = { edits := [BotCommandsMod.model_unavailable_message config.admin.id session],
          backend_invoked := false } ∧
    (∃ pre post, BotCommandsMod.model_unavailable_message config.admin.id session
        = pre ++ (BotCommandsMod.admin_mention config.admin.id ++ post)) := by
  refine ⟨by simp [BotCommandsMod.respond_model_gate, h], ?_⟩
  refine ⟨"**Oops, model \x27".toList ++ session.model ++ "\x27 for session \x27".toList
      ++ session.name ++ "\x27 is not available, ".toList, " fix that shit**".toList, ?_⟩
  simp [BotCommandsMod.model_unavailable_message, List.append_assoc]

/-- Witness for `respond_gate_unconfigured_model` at a concrete config and
session. -/
theorem respond_gate_unconfigured_model_witness :
    BotCommandsMod.respond_model_gate cfgC5 sessionC5w
      = { edits := [BotCommandsMod.model_unavailable_message cfgC5.admin.id sessionC5w],
          backend_invoked := false } ∧
    (∃ pre post, BotCommandsMod.model_unavailable_message cfgC5.admin.id sessionC5w
        = pre ++ (BotCommandsMod.admin_mention cfgC5.admin.id ++ post)) :=
  respond_gate_unconfigured_model cfgC5 sessionC5w (by decide)

/-- With no model config, the renderer returns the stripped raw response, or
the waiting message when it strips to nothing. -/
theorem process_raw_response_no_config (raw : List Char) :
    BotMod.process_raw_response raw none
      = if (PyStr.strip raw).isEmpty then "Waiting for response...".toList
        else PyStr.strip raw := by
  unfold BotMod.process_raw_response BotMod.thinking_tags_of ResponseMod.init
    ResponseMod.extract_thoughts
  by_cases h : (PyStr.strip raw).isEmpty
  · simp [BotMod.truthyOpt, BotMod.optVal, h]
  · simp [BotMod.truthyOpt, BotMod.optVal, h]

/-- A single-chunk stream whose time gate never fires still issues the final
edit with the rendered accumulated text. -/
theorem process_llm_response_single (c : List Char) (mc : Option BotMod.ModelConfig)
    (h : c ≠ []) :
    BotMod.process_llm_response [c] [false] mc = [BotMod.process_raw_response c mc] := by
  simp [BotMod.process_llm_response, h]

/-- C7: evaluation of the streaming pipeline on a stream whose accumulated
text has 2001 characters: the final edit carries the full rendered text —
2001 characters, over the 2000-character platform limit, with no elision
marker — because `process_llm_response` never truncates. -/
theorem streaming_pipeline_no_truncation :
    BotMod.process_llm_response [bigChunkC7] [false] none = [bigChunkC7] ∧
    2000 < bigChunkC7.length := by
  have hns : ∀ c ∈ bigChunkC7, PyStr.pyIsSpace c = false := by
    intro c hc
    rw [List.eq_of_mem_replicate hc]
    decide
  have hlen : bigChunkC7.length = 2001 := by
    rw [bigChunkC7, List.length_replicate]
  have hne : bigChunkC7 ≠ [] := by
    intro hcon
    rw [hcon] at hlen
    simp at hlen
  constructor
  · rw [process_llm_response_single _ _ hne, process_raw_response_no_config,
      PyStr.strip_eq_self hns, if_neg]
    simp [List.isEmpty_iff, hne]
  · rw [hlen]
    omega

/-- C2 counterexample: the final `(thoughts, content)` does depend on the
split even when no tag is split across a chunk boundary. For
`T = "a<think>b</think>c"`, the one-chunk feed discards the pre-start-tag
`"a"` (content `"c"`) while the split `["a", "<think>b</think>c"]` keeps it
(content `"ac"`); for `T = "<think>a </think>b"`, the one-chunk feed strips
the thought span (thoughts `"a"`) while the split `["<think>a ", "</think>b"]`
left-strips only, keeping the trailing space (thoughts `"a "`). -/
theorem parser_split_dependent_counterexample :
    "a<think>b</think>c".toList = "a".toList ++ "<think>b</think>c".toList ∧
    (LlmResponseMod.feed
        (LlmResponseMod.init (some "<think>".toList) (some "</think>".toList))
        ["a<think>b</think>c".toList]).content = "c".toList ∧
    (LlmResponseMod.feed
        (LlmResponseMod.init (some "<think>".toList) (some "</think>".toList))
        ["a".toList, "<think>b</think>c".toList]).content = "ac".toList ∧
    "c".toList ≠ "ac".toList ∧
    "<think>a </think>b".toList = "<think>a ".toList ++ "</think>b".toList ∧
    (LlmResponseMod.feed
        (LlmResponseMod.init (some "<think>".toList) (some "</think>".toList))
        ["<think>a </think>b".toList]).thoughts = "a".toList ∧
    (LlmResponseMod.feed
        (LlmResponseMod.init (some "<think>".toList) (some "</think>".toList))
        ["<think>a ".toList, "</think>b".toList]).thoughts = "a ".toList ∧
    "a".toList ≠ "a ".toList := by
  decide

/-- C2 (amended): for a parser configured with non-empty tags `s`, `e` and a
text `T = s ++ a ++ e ++ b` that contains no whitespace, in which `s` occurs
only at position 0 and `e` first occurs at position `|s| + |a|`, feeding any
chunk split of `T` whose boundaries split neither of those two tag occurrences
yields the same final pair — `thoughts = a` and `content = b`, the one-chunk
result. -/
theorem parser_split_invariance (s e a b : List Char) (cs : List (List Char))
    (hs : s ≠ []) (he : e ≠ [])
    (hws : ∀ c ∈ LlmResponseMod.fullText s e a b, PyStr.pyIsSpace c = false)
    (honly : ∀ q < (LlmResponseMod.fullText s e a b).length,
      0 < q → ¬ PyStr.occursAt (LlmResponseMod.fullText s e a b) s q)
    (hfirst : ∀ q < s.length + a.length,
      ¬ PyStr.occursAt (LlmResponseMod.fullText s e a b) e q)
    (hjoin : cs.flatten = LlmResponseMod.fullText s e a b)
    (halign : ∀ i ≤ cs.length,
      LlmResponseMod.aligned s e a (LlmResponseMod.sumLen (cs.take i))) :
    (LlmResponseMod.feed (LlmResponseMod.init (some s) (some e)) cs).thoughts = a ∧
    (LlmResponseMod.feed (LlmResponseMod.init (some s) (some e)) cs).content = b := by
  have hS : 0 < s.length := List.length_pos.mpr hs
  have hTlen : (LlmResponseMod.fullText s e a b).length
      = s.length + a.length + e.length + b.length := by
    simp [LlmResponseMod.fullText]
    omega
  have honly' : ∀ q, 0 < q → ¬ PyStr.occursAt (LlmResponseMod.fullText s e a b) s q := by
    intro q hq hocc
    by_cases hql : q < (LlmResponseMod.fullText s e a b).length
    · exact honly q hql hq hocc
    · unfold PyStr.occursAt at hocc
      rw [List.drop_eq_nil_of_le (by omega)] at hocc
      cases s with
      | nil => exact hs rfl
      | cons c t => simp [List.isPrefixOf] at hocc
  have hinit : LlmResponseMod.init (some s) (some e) = LlmResponseMod.refState s e a b 0 := by
    unfold LlmResponseMod.init LlmResponseMod.refState
    have h1 : decide (s.length ≤ 0) = false := decide_eq_false (by omega)
    have h2 : decide (s.length + a.length + e.length ≤ 0) = false :=
      decide_eq_false (by omega)
    simp only [h1, h2, Nat.zero_sub, List.take_zero, LlmResponseMod.LLMResponse.mk.injEq,
      eq_self_iff_true, and_true, true_and, and_self]
  have hfeed := LlmResponseMod.feed_refState s e a b hs he hws honly'
    (fun q hq => hfirst q hq) cs 0 ⟨Or.inl rfl, Or.inl (Nat.zero_le _)⟩
    (Nat.zero_le _) (by rw [List.drop_zero]; exact hjoin)
    (by intro i hi; simpa using halign i hi)
  rw [hinit, hfeed]
  constructor
  · show a.take ((LlmResponseMod.fullText s e a b).length - s.length) = a
    exact List.take_of_length_le (by omega)
  · show b.take ((LlmResponseMod.fullText s e a b).length
      - (s.length + a.length + e.length)) = b
    exact List.take_of_length_le (by omega)

/-- Witness for `parser_split_invariance`: `"<think>abc</think>xy"` split as
`["<think>ab", "c</think>x", "y"]` parses to thoughts `"abc"`, content `"xy"`. -/
theorem parser_split_invariance_witness :
    (LlmResponseMod.feed
        (LlmResponseMod.init (some "<think>".toList) (some "</think>".toList))
        ["<think>ab".toList, "c</think>x".toList, "y".toList]).thoughts
      = "abc".toList ∧
    (LlmResponseMod.feed
        (LlmResponseMod.init (some "<think>".toList) (some "</think>".toList))
        ["<think>ab".toList, "c</think>x".toList, "y".toList]).content
      = "xy".toList :=
  parser_split_invariance "<think>".toList "</think>".toList "abc".toList "xy".toList
    ["<think>ab".toList, "c</think>x".toList, "y".toList]
    (by decide) (by decide) (by decide) (by decide) (by decide) (by decide) (by decide)
